import Mathlib

/-!
Verification of the wallet model of `src/lib/model/wallet.js`
(bitcore-wallet-service, particl fork).

The JavaScript wallet aggregate is embedded shallowly: each mutating method
becomes a state-passing function `Wallet → ... → Except WalletError (result × Wallet)`,
thrown precondition failures become `Except.error`, and the collaborators that
are not part of the repository snapshot (`AddressManager`, `Copayer`,
`Address.derive`, the shared precondition checker) are modelled from the
specification, as marked on their doc comments.
-/

/-- Error taxonomy. Modelled from the spec: failures raised by the shared
precondition checker (`$.checkState` / `$.checkArgument` / `$.shouldBeNumber`)
are `preconditionViolation`; `typeError` is a JavaScript runtime `TypeError`
(dereferencing a property of `undefined`), which is not a precondition error. -/
inductive WalletError where
  | preconditionViolation : WalletError
  | typeError : WalletError
deriving DecidableEq

/-- JS `a || b` for possibly-absent strings: `undefined`/`null` and the empty
string are falsy and replaced by the default. -/
def jsOrStr (o : Option String) (d : String) : String :=
  match o with
  | none => d
  | some s => if s = "" then d else s

/-- JS `name || null`: a present but falsy (empty) string collapses to `null`. -/
def jsOrNull (o : Option String) : Option String :=
  match o with
  | none => none
  | some s => if s = "" then none else some s

/-- JS `String.prototype.startsWith`, expressed on the character list so that
it evaluates by kernel reduction. -/
def strStartsWith (s p : String) : Bool :=
  p.data.isPrefixOf s.data

/-- Modelled from the spec: `Utils.checkValueInCollection` (src/lib/common is not
in the repository snapshot) tests membership of a value in an enumeration. -/
def checkValueInCollection (v : String) (enum : List String) : Bool :=
  enum.contains v

/-- Modelled from the spec: the supported coin enumeration `Constants.COINS`
(btc, bch, part — the coins enumerated by the service configuration). -/
def COINS : List String := ["btc", "bch", "part"]

/-- Modelled from the spec: the supported network enumeration
`Constants.NETWORKS` (`network ∈ {livenet, testnet}`). -/
def NETWORKS : List String := ["livenet", "testnet"]

/-- Modelled from the spec: `Defaults.COIN`, used by `Wallet.fromObj` when a
stored document lacks a coin field. Its exact value is irrelevant to the
claims; only that it replaces a falsy stored coin. -/
def DEFAULT_COIN : String := "btc"

/-- `Constants.DERIVATION_STRATEGIES.BIP45`, the default derivation strategy. -/
def BIP45 : String := "BIP45"

/-- `Constants.SCRIPT_TYPES.P2SH`, the default address type. -/
def P2SH : String := "P2SH"

/-- One entry of the wallet's `publicKeyRing`: the projection
`_.pick(copayer, ['xPubKey', 'requestPubKey'])`. -/
structure PkrEntry where
  xPubKey : String
  requestPubKey : String
deriving DecidableEq

/-- One request-key record, as built by `addCopayerRequestKey`:
`{key, signature, selfSigned, restrictions, name}`. -/
structure RequestKeyRecord where
  key : String
  signature : String
  selfSigned : Bool
  restrictions : List String
  name : Option String
deriving DecidableEq

/-- Modelled from the spec: `Copayer` (src/lib/model/copayer.js is not in the
repository snapshot) — identity, coin (must equal the parent wallet's coin),
extended public key, request public key, and the ordered list of request-key
records, newest first. -/
structure Copayer where
  id : String
  coin : String
  xPubKey : String
  requestPubKey : String
  requestPubKeys : List RequestKeyRecord
deriving DecidableEq

/-- Plain-object image of a `Copayer` produced by deep-cloning
(`_.cloneDeep`) during `Wallet.prototype.toObject`. -/
structure CopayerObj where
  id : String
  coin : String
  xPubKey : String
  requestPubKey : String
  requestPubKeys : List RequestKeyRecord
deriving DecidableEq

/-- Deep-clone a copayer into its plain-object form. -/
def Copayer.toPlain (c : Copayer) : CopayerObj :=
  { id := c.id, coin := c.coin, xPubKey := c.xPubKey,
    requestPubKey := c.requestPubKey, requestPubKeys := c.requestPubKeys }

/-- Modelled from the spec: `Copayer.fromObj` rebuilds a copayer from the
fields of its persisted plain object; serialization is lossless. -/
def Copayer.fromObj (o : CopayerObj) : Copayer :=
  { id := o.id, coin := o.coin, xPubKey := o.xPubKey,
    requestPubKey := o.requestPubKey, requestPubKeys := o.requestPubKeys }

/-- A derivation path as handed out by the AddressManager: it encodes the
derivation strategy, the branch (receive or change) and the index consumed. -/
structure DerivPath where
  strategy : String
  isChange : Bool
  index : Nat
deriving DecidableEq

/-- Modelled from the spec: `AddressManager`
(src/lib/model/addressmanager.js is not in the repository snapshot) owns the
monotonically increasing derivation-index counters, one per branch, keyed by
the derivation strategy. -/
structure AddressManager where
  derivationStrategy : String
  receiveAddressIndex : Nat
  changeAddressIndex : Nat
  coldStakingAddressIndex : Nat
deriving DecidableEq

/-- Modelled from the spec: `AddressManager.create` initializes all counters
to zero for the given derivation strategy. -/
def AddressManager.create (strategy : String) : AddressManager :=
  { derivationStrategy := strategy, receiveAddressIndex := 0,
    changeAddressIndex := 0, coldStakingAddressIndex := 0 }

/-- Modelled from the spec: `getNewAddressPath(isChange)` returns the next
unused path for the receive or change branch and increments the corresponding
counter; the returned path encodes `(strategy, branch, index)`. -/
def AddressManager.getNewAddressPath (am : AddressManager) (isChange : Bool) :
    DerivPath × AddressManager :=
  if isChange then
    ({ strategy := am.derivationStrategy, isChange := true,
       index := am.changeAddressIndex },
     { am with changeAddressIndex := am.changeAddressIndex + 1 })
  else
    ({ strategy := am.derivationStrategy, isChange := false,
       index := am.receiveAddressIndex },
     { am with receiveAddressIndex := am.receiveAddressIndex + 1 })

/-- Plain-object image of an `AddressManager` produced by `toObject`. -/
structure AddressManagerObj where
  derivationStrategy : String
  receiveAddressIndex : Nat
  changeAddressIndex : Nat
  coldStakingAddressIndex : Nat
deriving DecidableEq

/-- Deep-clone the address manager into its plain-object form. -/
def AddressManager.toPlain (am : AddressManager) : AddressManagerObj :=
  { derivationStrategy := am.derivationStrategy,
    receiveAddressIndex := am.receiveAddressIndex,
    changeAddressIndex := am.changeAddressIndex,
    coldStakingAddressIndex := am.coldStakingAddressIndex }

/-- Modelled from the spec: `AddressManager.fromObj` must round-trip counter
values exactly — losing a counter risks re-deriving an issued address. -/
def AddressManager.fromObj (o : AddressManagerObj) : AddressManager :=
  { derivationStrategy := o.derivationStrategy,
    receiveAddressIndex := o.receiveAddressIndex,
    changeAddressIndex := o.changeAddressIndex,
    coldStakingAddressIndex := o.coldStakingAddressIndex }

/-- Modelled from the spec: `Address.derive` (src/lib/model/address.js is not
in the repository snapshot) is a pure, deterministic function of
`(walletId, scriptType, publicKeyRing, path, m, coin, network, isChange,
secondaryEncoding)`; the free model records the arguments verbatim, so two
derived addresses are equal exactly when all those inputs are equal. The
`sha256` flag selects the secondary address encoding. -/
structure DerivedAddress where
  walletId : String
  addressType : String
  publicKeyRing : List PkrEntry
  path : DerivPath
  m : Int
  coin : String
  network : String
  isChange : Bool
  sha256 : Bool
deriving DecidableEq

/-- `Address.derive`, in the free model above. Calls in the source that omit
the trailing `sha256` argument pass `false` (JS `undefined` is falsy). -/
def Address.derive (walletId addressType : String) (publicKeyRing : List PkrEntry)
    (path : DerivPath) (m : Int) (coin network : String) (isChange sha256 : Bool) :
    DerivedAddress :=
  { walletId := walletId, addressType := addressType,
    publicKeyRing := publicKeyRing, path := path, m := m, coin := coin,
    network := network, isChange := isChange, sha256 := sha256 }

/-- A spend-address value stored in or returned from the cold-staking paths:
either a caller-supplied (or cached) string or an `Address` object freshly
produced by `createAddress`. -/
inductive SpendVal where
  | str : String → SpendVal
  | addr : DerivedAddress → SpendVal
deriving DecidableEq

/-- A staking-address value: either the `staking_key` used verbatim
(recognized-prefix path) or an address derived from the extended public key
`staking_key` at a concrete child index (the free model of
`HDPublicKey(key).derive(i).publicKey.toAddress().toString()`). -/
inductive StakeVal where
  | verbatim : String → StakeVal
  | derived : String → Nat → StakeVal
deriving DecidableEq

/-- The cold-staking configuration `{staking_key, spend_address, address_index}`.
An absent (`{}`) configuration is represented as `none` at the wallet level. -/
structure ColdStakingSetup where
  staking_key : String
  spend_address : Option SpendVal
  address_index : Option Nat
deriving DecidableEq

/-- JS falsiness of the stored `spend_address`: absent or the empty string. -/
def spendFalsy : Option SpendVal → Bool
  | none => true
  | some (SpendVal.str s) => decide (s = "")
  | some (SpendVal.addr _) => false

/-- The object returned by `getColdStakingAddresses`: possibly-empty map with
`staking_address` and `spend_address` entries. -/
structure CSResult where
  staking_address : Option StakeVal
  spend_address : Option SpendVal
deriving DecidableEq

/-- The wallet's lifecycle status. -/
inductive Status where
  | pending : Status
  | complete : Status
deriving DecidableEq

/-- The wallet aggregate, with the fields assigned by `Wallet.create` /
`Wallet.fromObj`. `addressIndex` is set by `create` but never restored by
`fromObj` (hence `Option`); it is not part of the persisted document shape. -/
structure Wallet where
  version : String
  createdOn : Nat
  id : String
  name : String
  m : Int
  n : Int
  singleAddress : Bool
  status : Status
  publicKeyRing : List PkrEntry
  addressIndex : Option Nat
  copayers : List Copayer
  pubKey : String
  coin : String
  network : String
  derivationStrategy : String
  addressType : String
  addressManager : AddressManager
  scanStatus : Option String
  coldStakingSetup : Option ColdStakingSetup
deriving DecidableEq

/-- The options record accepted by `Wallet.create`. `m` and `n` are numbers
(the model's `Int`), which is exactly what `$.shouldBeNumber` checks. -/
structure CreateOpts where
  id : Option String
  name : String
  m : Int
  n : Int
  singleAddress : Bool
  pubKey : String
  coin : String
  network : String
  derivationStrategy : Option String
  addressType : Option String

/-- `Wallet.create(opts)` (wallet.js:21-55). `now` models
`Math.floor(Date.now()/1000)` and `freshId` models `Uuid.v4()`. The only
validations performed are `$.shouldBeNumber(opts.m)`, `$.shouldBeNumber(opts.n)`
(always satisfied here since `m n : Int`) and the two
`$.checkArgument(Utils.checkValueInCollection(...))` calls. -/
def Wallet.create (opts : CreateOpts) (now : Nat) (freshId : String) :
    Except WalletError Wallet :=
  if checkValueInCollection opts.coin COINS = false then
    Except.error WalletError.preconditionViolation
  else if checkValueInCollection opts.network NETWORKS = false then
    Except.error WalletError.preconditionViolation
  else
    Except.ok
      { version := "1.0.0"
        createdOn := now
        id := jsOrStr opts.id freshId
        name := opts.name
        m := opts.m
        n := opts.n
        singleAddress := opts.singleAddress
        status := Status.pending
        publicKeyRing := []
        addressIndex := some 0
        copayers := []
        pubKey := opts.pubKey
        coin := opts.coin
        network := opts.network
        derivationStrategy := jsOrStr opts.derivationStrategy BIP45
        addressType := jsOrStr opts.addressType P2SH
        addressManager := AddressManager.create (jsOrStr opts.derivationStrategy BIP45)
        scanStatus := none
        coldStakingSetup := none }

/-- `Wallet.verifyCopayerLimits(m, n)` (wallet.js:103-105):
`(n >= 1 && n <= 15) && (m >= 1 && m <= n)`. -/
def Wallet.verifyCopayerLimits (m n : Int) : Bool :=
  (decide (n ≥ 1) && decide (n ≤ 15)) && (decide (m ≥ 1) && decide (m ≤ n))

/-- `Wallet.prototype.isShared` (wallet.js:107-109): `n > 1`. -/
def Wallet.isShared (w : Wallet) : Bool :=
  decide (w.n > 1)

/-- `Wallet.prototype.isComplete` (wallet.js:149-151): `status == 'complete'`. -/
def Wallet.isComplete (w : Wallet) : Bool :=
  decide (w.status = Status.complete)

/-- `_updatePublicKeyRing` (wallet.js:112-116): the projection of each copayer
to `(xPubKey, requestPubKey)`, in list order. -/
def publicKeyRingOf (cs : List Copayer) : List PkrEntry :=
  cs.map (fun c => { xPubKey := c.xPubKey, requestPubKey := c.requestPubKey })

/-- `Wallet.prototype.addCopayer` (wallet.js:118-126):
`$.checkState(copayer.coin == this.coin)`, push, and — only when the wallet is
now full or over-full — set status to `complete` and recompute the ring. -/
def Wallet.addCopayer (w : Wallet) (c : Copayer) : Except WalletError Wallet :=
  if c.coin ≠ w.coin then Except.error WalletError.preconditionViolation
  else if ((w.copayers ++ [c]).length : Int) < w.n then
    Except.ok { w with copayers := w.copayers ++ [c] }
  else
    Except.ok { w with copayers := w.copayers ++ [c],
                       status := Status.complete,
                       publicKeyRing := publicKeyRingOf (w.copayers ++ [c]) }

/-- `Wallet.prototype.getCopayer` (wallet.js:143-147): first copayer with the
given id, if any (`_.find`). -/
def Wallet.getCopayer (w : Wallet) (copayerId : String) : Option Copayer :=
  w.copayers.find? (fun c => c.id = copayerId)

/-- The record pushed by `addCopayerRequestKey` (wallet.js:134-140):
`selfSigned` is always `true`, `restrictions` defaults to `{}`, `name` to
`null`. -/
def mkRequestKeyRecord (requestPubKey signature : String)
    (restrictions : Option (List String)) (name : Option String) :
    RequestKeyRecord :=
  { key := requestPubKey, signature := signature, selfSigned := true,
    restrictions := restrictions.getD [], name := jsOrNull name }

/-- In-place `unshift` on the first copayer whose id matches, as performed by
the JS code on the object returned by `_.find`. -/
def unshiftRequestKey (cs : List Copayer) (copayerId : String)
    (record : RequestKeyRecord) : List Copayer :=
  match cs with
  | [] => []
  | c :: rest =>
    if c.id = copayerId then
      { c with requestPubKeys := record :: c.requestPubKeys } :: rest
    else c :: unshiftRequestKey rest copayerId record

/-- `Wallet.prototype.addCopayerRequestKey` (wallet.js:128-141):
`$.checkState(this.copayers.length == this.n)`, then `getCopayer` — whose
`undefined` result makes the subsequent `c.requestPubKeys.unshift` throw a
runtime `TypeError` — then unshift of the new record onto the found copayer. -/
def Wallet.addCopayerRequestKey (w : Wallet) (copayerId requestPubKey signature : String)
    (restrictions : Option (List String)) (name : Option String) :
    Except WalletError Wallet :=
  if (w.copayers.length : Int) ≠ w.n then
    Except.error WalletError.preconditionViolation
  else
    match w.getCopayer copayerId with
    | none => Except.error WalletError.typeError
    | some _ =>
      let record := mkRequestKeyRecord requestPubKey signature restrictions name
      Except.ok { w with copayers := unshiftRequestKey w.copayers copayerId record }

/-- `Wallet.prototype.createAddress` (wallet.js:157-166):
`$.checkState(this.isComplete())`, one path from the address manager, one
derived address. -/
def Wallet.createAddress (w : Wallet) (isChange sha256 : Bool) :
    Except WalletError (DerivedAddress × Wallet) :=
  if w.isComplete then
    let pr := w.addressManager.getNewAddressPath isChange
    Except.ok
      (Address.derive w.id w.addressType w.publicKeyRing pr.1 w.m w.coin
        w.network isChange sha256,
       { w with addressManager := pr.2 })
  else Except.error WalletError.preconditionViolation

/-- `Wallet.prototype.createAddresses` (wallet.js:168-184): one path from the
address manager; the primary encoding always, and — for coin `part` — the
secondary (`sha256`) encoding of the very same path. -/
def Wallet.createAddresses (w : Wallet) (isChange : Bool) :
    Except WalletError (List DerivedAddress × Wallet) :=
  if w.isComplete then
    let pr := w.addressManager.getNewAddressPath isChange
    let a1 := Address.derive w.id w.addressType w.publicKeyRing pr.1 w.m w.coin
      w.network isChange false
    let addrs :=
      if w.coin = "part" then
        [a1,
         Address.derive w.id w.addressType w.publicKeyRing pr.1 w.m w.coin
           w.network isChange true]
      else [a1]
    Except.ok (addrs, { w with addressManager := pr.2 })
  else Except.error WalletError.preconditionViolation

/-- `Wallet.prototype.updateColdStakingSetup` (wallet.js:186-190). -/
def Wallet.updateColdStakingSetup (w : Wallet) (s : Option ColdStakingSetup) :
    Wallet :=
  { w with coldStakingSetup := s }

/-- `Wallet.prototype.getColdStakingSetup` (wallet.js:192-196). -/
def Wallet.getColdStakingSetup (w : Wallet) : Option ColdStakingSetup :=
  w.coldStakingSetup

/-- The JS expression `spendAddress || self.createAddress(true, true)`:
a truthy caller string is used as-is; otherwise a change-branch address with
the secondary encoding is derived. -/
def spendOrDerive (w : Wallet) (spendAddress : Option String) :
    Except WalletError (SpendVal × Wallet) :=
  match spendAddress with
  | some t =>
    if t = "" then
      (w.createAddress true true).map (fun p => (SpendVal.addr p.1, p.2))
    else Except.ok (SpendVal.str t, w)
  | none =>
    (w.createAddress true true).map (fun p => (SpendVal.addr p.1, p.2))

/-- `Wallet.prototype.getColdStakingAddresses` (wallet.js:198-232). Empty
result unless the coin is `part` and a cold-staking setup is present. The
recognized-prefix path (`pcs`/`tpcs`) uses `staking_key` verbatim and caches a
spend address on first use; the extended-public-key path derives the staking
address at `address_index` (defaulting a falsy counter to 0) and
post-increments the counter before producing a spend address. -/
def Wallet.getColdStakingAddresses (w : Wallet) (spendAddress : Option String) :
    Except WalletError (CSResult × Wallet) :=
  match w.coldStakingSetup with
  | none => Except.ok ({ staking_address := none, spend_address := none }, w)
  | some s =>
    if w.coin ≠ "part" then
      Except.ok ({ staking_address := none, spend_address := none }, w)
    else if strStartsWith s.staking_key "pcs" || strStartsWith s.staking_key "tpcs" then
      if spendFalsy s.spend_address then
        match spendOrDerive w spendAddress with
        | Except.error e => Except.error e
        | Except.ok (sv, w1) =>
          Except.ok
            ({ staking_address := some (StakeVal.verbatim s.staking_key),
               spend_address := some sv },
             { w1 with coldStakingSetup := some { s with spend_address := some sv } })
      else
        Except.ok
          ({ staking_address := some (StakeVal.verbatim s.staking_key),
             spend_address := s.spend_address }, w)
    else
      let i := s.address_index.getD 0
      let w1 : Wallet :=
        { w with coldStakingSetup := some { s with address_index := some (i + 1) } }
      match spendOrDerive w1 spendAddress with
      | Except.error e => Except.error e
      | Except.ok (sv, w2) =>
        Except.ok
          ({ staking_address := some (StakeVal.derived s.staking_key i),
             spend_address := some sv }, w2)

/-- Plain-object image of a wallet, as produced by
`Wallet.prototype.toObject` (a deep clone plus the derived `isShared` flag)
and consumed by `Wallet.fromObj`. The fields with `||` defaults in `fromObj`
(`coin`, `derivationStrategy`, `addressType`) are possibly-absent here. -/
structure WalletObj where
  version : String
  createdOn : Nat
  id : String
  name : String
  m : Int
  n : Int
  singleAddress : Bool
  status : Status
  publicKeyRing : List PkrEntry
  copayers : List CopayerObj
  pubKey : String
  coin : Option String
  network : String
  derivationStrategy : Option String
  addressType : Option String
  addressManager : AddressManagerObj
  scanStatus : Option String
  coldStakingSetup : Option ColdStakingSetup
  isShared : Bool

/-- `Wallet.prototype.toObject` (wallet.js:87-91): a deep clone of the wallet
with the derived `isShared` flag added. -/
def Wallet.toObject (w : Wallet) : WalletObj :=
  { version := w.version
    createdOn := w.createdOn
    id := w.id
    name := w.name
    m := w.m
    n := w.n
    singleAddress := w.singleAddress
    status := w.status
    publicKeyRing := w.publicKeyRing
    copayers := w.copayers.map Copayer.toPlain
    pubKey := w.pubKey
    coin := some w.coin
    network := w.network
    derivationStrategy := some w.derivationStrategy
    addressType := some w.addressType
    addressManager := w.addressManager.toPlain
    scanStatus := w.scanStatus
    coldStakingSetup := w.coldStakingSetup
    isShared := w.isShared }

/-- `Wallet.fromObj` (wallet.js:57-85). `$.shouldBeNumber(obj.m)` /
`$.shouldBeNumber(obj.n)` are satisfied by the model's `Int` fields. Note that
`addressIndex` is never restored (left `undefined`) and the stored `isShared`
flag is ignored. -/
def Wallet.fromObj (obj : WalletObj) : Wallet :=
  { version := obj.version
    createdOn := obj.createdOn
    id := obj.id
    name := obj.name
    m := obj.m
    n := obj.n
    singleAddress := obj.singleAddress
    status := obj.status
    publicKeyRing := obj.publicKeyRing
    addressIndex := none
    copayers := obj.copayers.map Copayer.fromObj
    pubKey := obj.pubKey
    coin := jsOrStr obj.coin DEFAULT_COIN
    network := obj.network
    derivationStrategy := jsOrStr obj.derivationStrategy BIP45
    addressType := jsOrStr obj.addressType P2SH
    addressManager := AddressManager.fromObj obj.addressManager
    scanStatus := obj.scanStatus
    coldStakingSetup := obj.coldStakingSetup }

/-- Repeated `addCopayer` calls, one copayer at a time, stopping at the first
failure. -/
def addCopayerSeq (w : Wallet) : List Copayer → Except WalletError Wallet
  | [] => Except.ok w
  | c :: cs =>
    match w.addCopayer c with
    | Except.error e => Except.error e
    | Except.ok w' => addCopayerSeq w' cs

/-- The recognized cold-staking bech32 prefix for a network. Modelled from the
spec: `pcs` on livenet, `tpcs` on testnet. -/
def networkStakingPref (network : String) : String :=
  if network = "testnet" then "tpcs" else "pcs"

/-- The child index recorded in a derived staking address, when there is one. -/
def stakeIdxOf : Option StakeVal → Option Nat
  | some (StakeVal.derived _ i) => some i
  | _ => none

/-- Repeated `getColdStakingAddresses` calls, collecting for each call the
child index its staking address was derived from (if it was derived). -/
def coldStakingCallSeq (w : Wallet) :
    List (Option String) → Except WalletError (List (Option Nat) × Wallet)
  | [] => Except.ok ([], w)
  | sa :: rest =>
    match w.getColdStakingAddresses sa with
    | Except.error e => Except.error e
    | Except.ok (r, w') =>
      match coldStakingCallSeq w' rest with
      | Except.error e => Except.error e
      | Except.ok (is, wf) => Except.ok (stakeIdxOf r.staking_address :: is, wf)

/-- Boolean success test for wallet-returning operations. -/
def isOkW : Except WalletError Wallet → Bool
  | Except.ok _ => true
  | Except.error _ => false

/-- Equality of the fields of the persisted document shape
(`{version, id, createdOn, name, m, n, singleAddress, status, publicKeyRing,
copayers, pubKey, coin, network, derivationStrategy, addressType,
addressManager, scanStatus, coldStakingSetup}`). -/
def persistedFieldsEq (a b : Wallet) : Prop :=
  a.version = b.version ∧ a.createdOn = b.createdOn ∧ a.id = b.id ∧
  a.name = b.name ∧ a.m = b.m ∧ a.n = b.n ∧
  a.singleAddress = b.singleAddress ∧ a.status = b.status ∧
  a.publicKeyRing = b.publicKeyRing ∧ a.copayers = b.copayers ∧
  a.pubKey = b.pubKey ∧ a.coin = b.coin ∧ a.network = b.network ∧
  a.derivationStrategy = b.derivationStrategy ∧
  a.addressType = b.addressType ∧ a.addressManager = b.addressManager ∧
  a.scanStatus = b.scanStatus ∧ a.coldStakingSetup = b.coldStakingSetup

/-- A concrete 1-of-1 copayer. -/
def sampleCopayer1 : Copayer :=
  { id := "copayer-1", coin := "part", xPubKey := "xpub-1",
    requestPubKey := "req-1", requestPubKeys := [] }

/-- A second concrete copayer with the same coin. -/
def sampleCopayer2 : Copayer :=
  { id := "copayer-2", coin := "part", xPubKey := "xpub-2",
    requestPubKey := "req-2", requestPubKeys := [] }

/-- A concrete copayer on a different coin. -/
def sampleBtcCopayer : Copayer :=
  { id := "copayer-3", coin := "btc", xPubKey := "xpub-3",
    requestPubKey := "req-3", requestPubKeys := [] }

/-- A concrete, complete 1-of-1 `part` wallet holding `sampleCopayer1`. -/
def sampleCompleteWallet : Wallet :=
  { version := "1.0.0", createdOn := 0, id := "wallet-1", name := "w",
    m := 1, n := 1, singleAddress := false, status := Status.complete,
    publicKeyRing := [{ xPubKey := "xpub-1", requestPubKey := "req-1" }],
    addressIndex := some 0, copayers := [sampleCopayer1], pubKey := "pk",
    coin := "part", network := "livenet", derivationStrategy := "BIP45",
    addressType := "P2SH", addressManager := AddressManager.create "BIP45",
    scanStatus := none, coldStakingSetup := none }

/-- A concrete options record with a supported coin and network but with
`(m, n) = (0, 16)`, outside the range `1 ≤ m ≤ n ≤ 15`. -/
def outOfRangeOpts : CreateOpts :=
  { id := none, name := "w", m := 0, n := 16, singleAddress := false,
    pubKey := "pk", coin := "part", network := "livenet",
    derivationStrategy := none, addressType := none }

/-- A concrete options record with a supported coin and network and
`(m, n) = (2, 3)`. -/
def inRangeOpts : CreateOpts :=
  { id := none, name := "w", m := 2, n := 3, singleAddress := false,
    pubKey := "pk", coin := "part", network := "livenet",
    derivationStrategy := none, addressType := none }

/-- C1, counterexample: `Wallet.create` called with the supported coin `part`
and network `livenet` but `(m, n) = (0, 16)` — a numeric pair outside
`1 ≤ m ≤ n ≤ 15`, as `verifyCopayerLimits` itself certifies — succeeds
instead of failing with a PreconditionViolation. -/
theorem wallet_create_out_of_range_succeeds :
    isOkW (Wallet.create outOfRangeOpts 0 "fresh-id") = true ∧
    Wallet.verifyCopayerLimits 0 16 = false ∧
    checkValueInCollection outOfRangeOpts.coin COINS = true ∧
    checkValueInCollection outOfRangeOpts.network NETWORKS = true := by
  refine ⟨by decide, by decide, by decide, by decide⟩

/-- C1, amended: `Wallet.create` checks only that `m` and `n` are numbers and
that `coin` and `network` are supported; it succeeds for every integer pair
`(m, n)`, performing no range check. The range `1 ≤ m ≤ n ≤ 15` is enforced
only by the separate predicate `Wallet.verifyCopayerLimits`, which holds
exactly on that range. -/
theorem wallet_create_no_range_check (opts : CreateOpts) (now : Nat) (freshId : String)
    (hc : checkValueInCollection opts.coin COINS = true)
    (hn : checkValueInCollection opts.network NETWORKS = true) :
    (∃ w, Wallet.create opts now freshId = Except.ok w ∧
       w.m = opts.m ∧ w.n = opts.n ∧ w.status = Status.pending ∧
       w.copayers = [] ∧ w.publicKeyRing = []) ∧
    (∀ m n : Int, Wallet.verifyCopayerLimits m n = true ↔ 1 ≤ m ∧ m ≤ n ∧ n ≤ 15) := by
  constructor
  · unfold Wallet.create
    rw [hc, hn]
    simp only [Bool.true_eq_false, if_false]
    exact ⟨_, rfl, rfl, rfl, rfl, rfl, rfl⟩
  · intro m n
    unfold Wallet.verifyCopayerLimits
    simp only [Bool.and_eq_true, decide_eq_true_eq]
    omega

/-- C1, witness: the amended theorem applied to the concrete in-range options
`inRangeOpts`. -/
theorem wallet_create_no_range_check_witness :
    checkValueInCollection inRangeOpts.coin COINS = true ∧
    checkValueInCollection inRangeOpts.network NETWORKS = true ∧
    ((∃ w, Wallet.create inRangeOpts 7 "uuid-1" = Except.ok w ∧
        w.m = inRangeOpts.m ∧ w.n = inRangeOpts.n ∧ w.status = Status.pending ∧
        w.copayers = [] ∧ w.publicKeyRing = []) ∧
     (∀ m n : Int, Wallet.verifyCopayerLimits m n = true ↔ 1 ≤ m ∧ m ≤ n ∧ n ≤ 15)) :=
  ⟨by decide, by decide,
   wallet_create_no_range_check inRangeOpts 7 "uuid-1" (by decide) (by decide)⟩

/-- C7: `addCopayer` with a copayer whose coin differs from the wallet's fails
with a PreconditionViolation; the failure happens before the push, so no
successor wallet state exists and the copayer list is untouched. -/
theorem addCopayer_coin_mismatch (w : Wallet) (c : Copayer) (h : c.coin ≠ w.coin) :
    Wallet.addCopayer w c = Except.error WalletError.preconditionViolation := by
  unfold Wallet.addCopayer
  rw [if_pos h]

/-- C7, witness: adding the btc copayer to the part wallet fails. -/
theorem addCopayer_coin_mismatch_witness :
    sampleBtcCopayer.coin ≠ sampleCompleteWallet.coin ∧
    Wallet.addCopayer sampleCompleteWallet sampleBtcCopayer =
      Except.error WalletError.preconditionViolation :=
  ⟨by decide, addCopayer_coin_mismatch sampleCompleteWallet sampleBtcCopayer (by decide)⟩

/-- C2, counterexample: `sampleCompleteWallet` is `complete` (n = 1, one
copayer), yet `addCopayer` of a matching-coin copayer succeeds and changes the
copayers list — membership is not immutable once complete. -/
theorem complete_membership_not_immutable :
    sampleCompleteWallet.status = Status.complete ∧
    sampleCopayer2.coin = sampleCompleteWallet.coin ∧
    (Wallet.addCopayer sampleCompleteWallet sampleCopayer2).map Wallet.copayers =
      Except.ok [sampleCopayer1, sampleCopayer2] ∧
    [sampleCopayer1, sampleCopayer2] ≠ sampleCompleteWallet.copayers :=
  ⟨rfl, rfl, by rfl, by decide⟩

/-- C2, amended: `addCopayer` performs no completeness check, so on a
`complete` wallet a matching-coin copayer is still appended (membership stays
mutable at the model level; callers must guard completeness themselves).
What does hold is the one-way lifecycle: the resulting status is still
`complete`, and no `addCopayer` call ever moves a complete wallet back to
`pending`. -/
theorem addCopayer_after_complete (w : Wallet) (c : Copayer)
    (hst : w.status = Status.complete) (hc : c.coin = w.coin) :
    ∃ w', Wallet.addCopayer w c = Except.ok w' ∧
      w'.copayers = w.copayers ++ [c] ∧ w'.status = Status.complete := by
  unfold Wallet.addCopayer
  rw [if_neg (by simp [hc])]
  by_cases h2 : (((w.copayers ++ [c]).length : Int) < w.n)
  · rw [if_pos h2]
    exact ⟨_, rfl, rfl, hst⟩
  · rw [if_neg h2]
    exact ⟨_, rfl, rfl, rfl⟩

/-- C2, witness: the amended theorem applied to the concrete complete wallet
and the matching-coin copayer. -/
theorem addCopayer_after_complete_witness :
    sampleCompleteWallet.status = Status.complete ∧
    sampleCopayer2.coin = sampleCompleteWallet.coin ∧
    (∃ w', Wallet.addCopayer sampleCompleteWallet sampleCopayer2 = Except.ok w' ∧
      w'.copayers = sampleCompleteWallet.copayers ++ [sampleCopayer2] ∧
      w'.status = Status.complete) :=
  ⟨rfl, rfl, addCopayer_after_complete sampleCompleteWallet sampleCopayer2 rfl rfl⟩

/-- `find?` over a decomposed list whose prefix has no matching id finds the
head of the suffix. -/
theorem find_id_decomp (pre : List Copayer) (c : Copayer) (post : List Copayer)
    (cid : String) (hpre : ∀ x ∈ pre, x.id ≠ cid) (hc : c.id = cid) :
    (pre ++ c :: post).find? (fun x => x.id = cid) = some c := by
  induction pre with
  | nil =>
    simp only [List.nil_append]
    exact List.find?_cons_of_pos post (by simp [hc])
  | cons a pre ih =>
    have ha : a.id ≠ cid := hpre a (by simp)
    have : (a :: (pre ++ c :: post)).find? (fun x => x.id = cid) =
        (pre ++ c :: post).find? (fun x => x.id = cid) :=
      List.find?_cons_of_neg _ (by simp [ha])
    simpa [this] using ih (fun x hx => hpre x (by simp [hx]))

/-- `unshiftRequestKey` over a decomposed list whose prefix has no matching id
updates exactly the head of the suffix. -/
theorem unshift_decomp (pre : List Copayer) (c : Copayer) (post : List Copayer)
    (cid : String) (record : RequestKeyRecord)
    (hpre : ∀ x ∈ pre, x.id ≠ cid) (hc : c.id = cid) :
    unshiftRequestKey (pre ++ c :: post) cid record =
      pre ++ { c with requestPubKeys := record :: c.requestPubKeys } :: post := by
  induction pre with
  | nil => simp [unshiftRequestKey, hc]
  | cons a pre ih =>
    have ha : a.id ≠ cid := hpre a (by simp)
    simp only [List.cons_append, unshiftRequestKey, if_neg ha, List.append_eq]
    rw [ih (fun x hx => hpre x (by simp [hx]))]

/-- C8, counterexample: on the complete wallet, a `copayerId` that resolves to
no copayer makes `addCopayerRequestKey` fail with a runtime `TypeError`
(`c.requestPubKeys.unshift` on the `undefined` result of `_.find`), not with a
PreconditionViolation. -/
theorem addCopayerRequestKey_unknown_id_type_error :
    (sampleCompleteWallet.copayers.length : Int) = sampleCompleteWallet.n ∧
    Wallet.getCopayer sampleCompleteWallet "no-such-id" = none ∧
    Wallet.addCopayerRequestKey sampleCompleteWallet "no-such-id" "k" "sig" none none =
      Except.error WalletError.typeError ∧
    WalletError.typeError ≠ WalletError.preconditionViolation :=
  ⟨by decide, by rfl, by rfl, by decide⟩

/-- C8, amended: `addCopayerRequestKey` fails with a PreconditionViolation
when the copayer count differs from `n` (in particular on any non-full,
pending wallet); when the count matches but `copayerId` resolves to no
copayer it fails with a runtime `TypeError`, not a PreconditionViolation; and
when both preconditions hold it prepends the record
`{key, signature, selfSigned := true, restrictions, name}` to the front of
exactly that copayer's `requestPubKeys`, keeping every existing record and
every other copayer unchanged. -/
theorem addCopayerRequestKey_spec (w : Wallet)
    (copayerId requestPubKey signature : String)
    (restrictions : Option (List String)) (name : Option String) :
    ((w.copayers.length : Int) ≠ w.n →
      Wallet.addCopayerRequestKey w copayerId requestPubKey signature restrictions name =
        Except.error WalletError.preconditionViolation) ∧
    ((w.copayers.length : Int) = w.n → Wallet.getCopayer w copayerId = none →
      Wallet.addCopayerRequestKey w copayerId requestPubKey signature restrictions name =
        Except.error WalletError.typeError) ∧
    (∀ pre c post, (w.copayers.length : Int) = w.n →
      w.copayers = pre ++ c :: post → (∀ x ∈ pre, x.id ≠ copayerId) →
      c.id = copayerId →
      Wallet.addCopayerRequestKey w copayerId requestPubKey signature restrictions name =
        Except.ok { w with copayers := pre ++
          { c with requestPubKeys :=
              mkRequestKeyRecord requestPubKey signature restrictions name ::
                c.requestPubKeys } :: post }) := by
  refine ⟨?_, ?_, ?_⟩
  · intro hne
    unfold Wallet.addCopayerRequestKey
    rw [if_pos hne]
  · intro heq hnone
    unfold Wallet.addCopayerRequestKey
    rw [if_neg (by simp [heq]), hnone]
  · intro pre c post heq hdecomp hpre hc
    unfold Wallet.addCopayerRequestKey
    rw [if_neg (by simp [heq])]
    have hfind : Wallet.getCopayer w copayerId = some c := by
      unfold Wallet.getCopayer
      rw [hdecomp]
      exact find_id_decomp pre c post copayerId hpre hc
    rw [hfind]
    have hupd := unshift_decomp pre c post copayerId
      (mkRequestKeyRecord requestPubKey signature restrictions name) hpre hc
    simp only [hdecomp, hupd]

/-- C8, witness: the amended theorem's success case applied to the complete
wallet and its actual copayer id. -/
theorem addCopayerRequestKey_spec_witness :
    (sampleCompleteWallet.copayers.length : Int) = sampleCompleteWallet.n ∧
    sampleCompleteWallet.copayers = [] ++ sampleCopayer1 :: [] ∧
    sampleCopayer1.id = "copayer-1" ∧
    Wallet.addCopayerRequestKey sampleCompleteWallet "copayer-1" "k2" "sig2" none none =
      Except.ok { sampleCompleteWallet with copayers := [] ++
        { sampleCopayer1 with requestPubKeys :=
            mkRequestKeyRecord "k2" "sig2" none none ::
              sampleCopayer1.requestPubKeys } :: [] } :=
  ⟨by decide, by rfl, by rfl,
   (addCopayerRequestKey_spec sampleCompleteWallet "copayer-1" "k2" "sig2" none none).2.2
     [] sampleCopayer1 [] (by decide) (by rfl) (by simp) (by rfl)⟩

/-- C4: on a complete wallet, `createAddresses(isChange)` consumes exactly one
index from the AddressManager (one `getNewAddressPath` call; the chosen
branch's counter advances by one, the other is untouched) and returns, for
coin `part`, exactly two addresses that share that single path and differ only
in the `sha256` encoding flag — and exactly one address for every other coin. -/
theorem createAddresses_encodings (w : Wallet) (isChange : Bool)
    (hst : w.status = Status.complete) :
    ∃ a1 w',
      Wallet.createAddresses w isChange =
        Except.ok
          ((if w.coin = "part" then [a1, { a1 with sha256 := true }] else [a1]), w') ∧
      a1 = Address.derive w.id w.addressType w.publicKeyRing
             (w.addressManager.getNewAddressPath isChange).1 w.m w.coin w.network
             isChange false ∧
      w' = { w with addressManager := (w.addressManager.getNewAddressPath isChange).2 } ∧
      (isChange = true →
        w'.addressManager.changeAddressIndex = w.addressManager.changeAddressIndex + 1 ∧
        w'.addressManager.receiveAddressIndex = w.addressManager.receiveAddressIndex) ∧
      (isChange = false →
        w'.addressManager.receiveAddressIndex = w.addressManager.receiveAddressIndex + 1 ∧
        w'.addressManager.changeAddressIndex = w.addressManager.changeAddressIndex) := by
  have hcpl : w.isComplete = true := by simp [Wallet.isComplete, hst]
  unfold Wallet.createAddresses
  rw [hcpl]
  simp only [if_true]
  refine ⟨_, _, rfl, rfl, rfl, ?_, ?_⟩
  · intro hch
    subst hch
    simp [AddressManager.getNewAddressPath]
  · intro hch
    subst hch
    simp [AddressManager.getNewAddressPath]

/-- C4, witness: the theorem applied to the concrete complete `part` wallet on
the change branch. -/
theorem createAddresses_encodings_witness :
    sampleCompleteWallet.status = Status.complete ∧
    (∃ a1 w',
      Wallet.createAddresses sampleCompleteWallet true =
        Except.ok
          ((if sampleCompleteWallet.coin = "part" then
              [a1, { a1 with sha256 := true }] else [a1]), w') ∧
      a1 = Address.derive sampleCompleteWallet.id sampleCompleteWallet.addressType
             sampleCompleteWallet.publicKeyRing
             (sampleCompleteWallet.addressManager.getNewAddressPath true).1
             sampleCompleteWallet.m sampleCompleteWallet.coin
             sampleCompleteWallet.network true false ∧
      w' = { sampleCompleteWallet with
              addressManager :=
                (sampleCompleteWallet.addressManager.getNewAddressPath true).2 } ∧
      (true = true →
        w'.addressManager.changeAddressIndex =
          sampleCompleteWallet.addressManager.changeAddressIndex + 1 ∧
        w'.addressManager.receiveAddressIndex =
          sampleCompleteWallet.addressManager.receiveAddressIndex) ∧
      (true = false →
        w'.addressManager.receiveAddressIndex =
          sampleCompleteWallet.addressManager.receiveAddressIndex + 1 ∧
        w'.addressManager.changeAddressIndex =
          sampleCompleteWallet.addressManager.changeAddressIndex)) :=
  ⟨rfl, createAddresses_encodings sampleCompleteWallet true rfl⟩

/-- If the staking key starts with the recognized staking prefix of the
wallet's network, then the code's branch condition — starting with `pcs` or
with `tpcs` — holds. -/
theorem startsWith_recognized {k nw : String}
    (h : strStartsWith k (networkStakingPref nw) = true) :
    (strStartsWith k "pcs" || strStartsWith k "tpcs") = true := by
  unfold networkStakingPref at h
  by_cases hnw : nw = "testnet"
  · rw [if_pos hnw] at h
    simp [h]
  · rw [if_neg hnw] at h
    simp [h]

/-- C6: on a complete `part` wallet whose `coldStakingSetup.staking_key`
starts with the recognized staking prefix for the wallet's network and whose
`spend_address` is not yet set, `getColdStakingAddresses` returns the
`staking_key` verbatim as `staking_address`, derives the `spend_address` once
via `createAddress(true, true)` and caches it in `coldStakingSetup`; every
subsequent call (with any `spendAddress` argument) returns the identical
`spend_address` and leaves the wallet — address manager included —
completely unchanged. -/
theorem coldStaking_prefix_idempotent (w : Wallet) (s : ColdStakingSetup)
    (hcoin : w.coin = "part") (hcs : w.coldStakingSetup = some s)
    (hkey : strStartsWith s.staking_key (networkStakingPref w.network) = true)
    (hsp : s.spend_address = none) (hst : w.status = Status.complete) :
    ∃ a w1,
      Wallet.getColdStakingAddresses w none =
        Except.ok ({ staking_address := some (StakeVal.verbatim s.staking_key),
                     spend_address := some (SpendVal.addr a) }, w1) ∧
      a = Address.derive w.id w.addressType w.publicKeyRing
            (w.addressManager.getNewAddressPath true).1 w.m w.coin w.network
            true true ∧
      w1.coldStakingSetup = some { s with spend_address := some (SpendVal.addr a) } ∧
      w1.addressManager = (w.addressManager.getNewAddressPath true).2 ∧
      (∀ sa2, Wallet.getColdStakingAddresses w1 sa2 =
        Except.ok ({ staking_address := some (StakeVal.verbatim s.staking_key),
                     spend_address := some (SpendVal.addr a) }, w1)) := by
  have hbr := startsWith_recognized hkey
  have hC : ¬ (w.coin ≠ "part") := by simp [hcoin]
  have hcpl : w.isComplete = true := by simp [Wallet.isComplete, hst]
  unfold Wallet.getColdStakingAddresses
  rw [hcs]
  simp only [hbr, if_true, hsp, spendFalsy, if_neg hC]
  have hca : Wallet.createAddress w true true =
      Except.ok (Address.derive w.id w.addressType w.publicKeyRing
        (w.addressManager.getNewAddressPath true).1 w.m w.coin w.network true true,
        { w with addressManager := (w.addressManager.getNewAddressPath true).2 }) := by
    unfold Wallet.createAddress
    rw [hcpl]
    rfl
  have hod : spendOrDerive w none =
      Except.ok (SpendVal.addr (Address.derive w.id w.addressType w.publicKeyRing
        (w.addressManager.getNewAddressPath true).1 w.m w.coin w.network true true),
        { w with addressManager := (w.addressManager.getNewAddressPath true).2 }) := by
    unfold spendOrDerive
    rw [hca]
    rfl
  rw [hod]
  refine ⟨_, _, rfl, rfl, rfl, rfl, ?_⟩
  intro sa2
  dsimp only
  rw [if_neg hC]
  simp only [hbr, if_true]
  rfl

/-- A concrete cold-staking setup whose staking key carries the livenet
staking prefix. -/
def prefixSetup : ColdStakingSetup :=
  { staking_key := "pcsStakeKey", spend_address := none, address_index := none }

/-- The complete `part` wallet configured with `prefixSetup`. -/
def prefixWallet : Wallet :=
  { sampleCompleteWallet with coldStakingSetup := some prefixSetup }

/-- C6, witness: the theorem applied to the concrete livenet wallet whose
staking key starts with `pcs`. -/
theorem coldStaking_prefix_idempotent_witness :
    prefixWallet.coin = "part" ∧
    prefixWallet.coldStakingSetup = some prefixSetup ∧
    strStartsWith prefixSetup.staking_key (networkStakingPref prefixWallet.network) = true ∧
    prefixSetup.spend_address = none ∧
    prefixWallet.status = Status.complete ∧
    (∃ a w1,
      Wallet.getColdStakingAddresses prefixWallet none =
        Except.ok ({ staking_address := some (StakeVal.verbatim prefixSetup.staking_key),
                     spend_address := some (SpendVal.addr a) }, w1) ∧
      a = Address.derive prefixWallet.id prefixWallet.addressType prefixWallet.publicKeyRing
            (prefixWallet.addressManager.getNewAddressPath true).1 prefixWallet.m
            prefixWallet.coin prefixWallet.network true true ∧
      w1.coldStakingSetup = some { prefixSetup with spend_address := some (SpendVal.addr a) } ∧
      w1.addressManager = (prefixWallet.addressManager.getNewAddressPath true).2 ∧
      (∀ sa2, Wallet.getColdStakingAddresses w1 sa2 =
        Except.ok ({ staking_address := some (StakeVal.verbatim prefixSetup.staking_key),
                     spend_address := some (SpendVal.addr a) }, w1))) :=
  ⟨rfl, rfl, by decide, rfl, rfl,
   coldStaking_prefix_idempotent prefixWallet prefixSetup rfl rfl (by decide) rfl rfl⟩

/-- One call on the extended-public-key path: the staking address is derived
at the current effective `address_index` (a falsy counter counts as 0), the
counter is advanced to exactly one past it, and coin, status and staking key
are preserved. -/
theorem coldStaking_xpub_step (w : Wallet) (s : ColdStakingSetup) (sa : Option String)
    (hcoin : w.coin = "part") (hcs : w.coldStakingSetup = some s)
    (hkey : (strStartsWith s.staking_key "pcs" || strStartsWith s.staking_key "tpcs") = false)
    (hst : w.status = Status.complete) :
    ∃ r w',
      Wallet.getColdStakingAddresses w sa = Except.ok (r, w') ∧
      r.staking_address = some (StakeVal.derived s.staking_key (s.address_index.getD 0)) ∧
      w'.coin = w.coin ∧ w'.status = w.status ∧
      w'.coldStakingSetup = some { s with address_index := some (s.address_index.getD 0 + 1) } := by
  have hC : ¬ (w.coin ≠ "part") := by simp [hcoin]
  have hnb : ¬ ((strStartsWith s.staking_key "pcs" || strStartsWith s.staking_key "tpcs") = true) := by
    simp [hkey]
  unfold Wallet.getColdStakingAddresses
  rw [hcs]
  dsimp only
  rw [if_neg hC, if_neg hnb]
  have hcpl1 : ({ w with coldStakingSetup := some { s with address_index := some (s.address_index.getD 0 + 1) } } : Wallet).isComplete = true := by
    simp [Wallet.isComplete, hst]
  rcases sa with _ | t
  · have hod : spendOrDerive
        ({ w with coldStakingSetup := some { s with address_index := some (s.address_index.getD 0 + 1) } } : Wallet) none =
        Except.ok (SpendVal.addr (Address.derive w.id w.addressType w.publicKeyRing
          (w.addressManager.getNewAddressPath true).1 w.m w.coin w.network true true),
          { w with coldStakingSetup := some { s with address_index := some (s.address_index.getD 0 + 1) }, addressManager := (w.addressManager.getNewAddressPath true).2 }) := by
      unfold spendOrDerive Wallet.createAddress
      rw [hcpl1]
      rfl
    rw [hod]
    exact ⟨_, _, rfl, rfl, rfl, rfl, rfl⟩
  · by_cases ht : t = ""
    · subst ht
      have hod : spendOrDerive
          ({ w with coldStakingSetup := some { s with address_index := some (s.address_index.getD 0 + 1) } } : Wallet) (some "") =
          Except.ok (SpendVal.addr (Address.derive w.id w.addressType w.publicKeyRing
            (w.addressManager.getNewAddressPath true).1 w.m w.coin w.network true true),
            { w with coldStakingSetup := some { s with address_index := some (s.address_index.getD 0 + 1) }, addressManager := (w.addressManager.getNewAddressPath true).2 }) := by
        unfold spendOrDerive Wallet.createAddress
        dsimp only
        rw [hcpl1]
        rfl
      rw [hod]
      exact ⟨_, _, rfl, rfl, rfl, rfl, rfl⟩
    · have hod : spendOrDerive
          ({ w with coldStakingSetup := some { s with address_index := some (s.address_index.getD 0 + 1) } } : Wallet) (some t) =
          Except.ok (SpendVal.str t,
            { w with coldStakingSetup := some { s with address_index := some (s.address_index.getD 0 + 1) } }) := by
        unfold spendOrDerive
        dsimp only
        rw [if_neg ht]
      rw [hod]
      exact ⟨_, _, rfl, rfl, rfl, rfl, rfl⟩

/-- C5: on a complete `part` wallet whose `staking_key` does not start with a
recognized staking prefix (so it is treated as an extended public key), any
sequence of `getColdStakingAddresses` calls derives its staking addresses
from the consecutive child indices starting at the current effective
`address_index`: each call advances the counter by exactly 1, the final
counter sits one past the last issued index, and the issued index list has no
duplicates — no previously issued index is ever reused. -/
theorem coldStaking_xpub_index_monotone (w : Wallet) (s : ColdStakingSetup)
    (sas : List (Option String))
    (hcoin : w.coin = "part") (hcs : w.coldStakingSetup = some s)
    (hkey : (strStartsWith s.staking_key "pcs" || strStartsWith s.staking_key "tpcs") = false)
    (hst : w.status = Status.complete) :
    ∃ wf s',
      coldStakingCallSeq w sas =
        Except.ok ((List.range' (s.address_index.getD 0) sas.length).map some, wf) ∧
      wf.coldStakingSetup = some s' ∧
      s'.staking_key = s.staking_key ∧
      s'.address_index.getD 0 = s.address_index.getD 0 + sas.length ∧
      (List.range' (s.address_index.getD 0) sas.length).Nodup := by
  induction sas generalizing w s with
  | nil =>
    exact ⟨w, s, by simp [coldStakingCallSeq], hcs, rfl, by simp, by simp⟩
  | cons sa rest ih =>
    obtain ⟨r, w', hcall, hsa, hcoin', hst', hcs'⟩ :=
      coldStaking_xpub_step w s sa hcoin hcs hkey hst
    obtain ⟨wf, s', hseq, hcs'', hsk, hidx, hnd⟩ :=
      ih w' { s with address_index := some (s.address_index.getD 0 + 1) }
        (by rw [hcoin']; exact hcoin) hcs' hkey (by rw [hst']; exact hst)
    refine ⟨wf, s', ?_, hcs'', hsk, ?_, ?_⟩
    · unfold coldStakingCallSeq
      rw [hcall]
      dsimp only
      rw [hseq]
      dsimp only
      rw [hsa]
      simp only [List.length_cons, List.range'_succ, List.map_cons]
      rfl
    · rw [hidx]
      simp only [Option.getD_some, List.length_cons]
      omega
    · exact List.nodup_range' _ _ 1 (by omega)

/-- A concrete cold-staking setup whose staking key looks like an extended
public key (no recognized staking prefix). -/
def xpubSetup : ColdStakingSetup :=
  { staking_key := "xpubStakeKey", spend_address := none, address_index := none }

/-- The complete `part` wallet configured with `xpubSetup`. -/
def xpubWallet : Wallet :=
  { sampleCompleteWallet with coldStakingSetup := some xpubSetup }

/-- C5, witness: three consecutive calls on the concrete extended-key wallet
issue the consecutive indices 0, 1, 2. -/
theorem coldStaking_xpub_index_monotone_witness :
    xpubWallet.coin = "part" ∧
    xpubWallet.coldStakingSetup = some xpubSetup ∧
    (strStartsWith xpubSetup.staking_key "pcs" ||
      strStartsWith xpubSetup.staking_key "tpcs") = false ∧
    xpubWallet.status = Status.complete ∧
    (∃ wf s',
      coldStakingCallSeq xpubWallet [none, some "sp", none] =
        Except.ok ((List.range' (xpubSetup.address_index.getD 0) 3).map some, wf) ∧
      wf.coldStakingSetup = some s' ∧
      s'.staking_key = xpubSetup.staking_key ∧
      s'.address_index.getD 0 = xpubSetup.address_index.getD 0 + 3 ∧
      (List.range' (xpubSetup.address_index.getD 0) 3).Nodup) :=
  ⟨rfl, rfl, by decide, rfl,
   coldStaking_xpub_index_monotone xpubWallet xpubSetup [none, some "sp", none]
     rfl rfl (by decide) rfl⟩

/-- C10: on the extended-public-key path, a call without a `spendAddress`
argument never caches the spend address — the resulting `coldStakingSetup`
changes only its `address_index`, keeping `spend_address` exactly as before —
and it derives a fresh change-branch address via `createAddress(true, true)`,
consuming one change index (the change counter advances by 1). By contrast,
the recognized-prefix path with an already cached (non-falsy) `spend_address`
returns the cached value and leaves the wallet, change counter included,
entirely unchanged. -/
theorem coldStaking_xpub_not_cached (w : Wallet) (s : ColdStakingSetup)
    (hcoin : w.coin = "part") (hcs : w.coldStakingSetup = some s)
    (hkey : (strStartsWith s.staking_key "pcs" || strStartsWith s.staking_key "tpcs") = false)
    (hst : w.status = Status.complete) :
    (∃ a, Wallet.getColdStakingAddresses w none =
        Except.ok
          ({ staking_address := some (StakeVal.derived s.staking_key (s.address_index.getD 0)),
             spend_address := some (SpendVal.addr a) },
           { w with coldStakingSetup := some { s with address_index := some (s.address_index.getD 0 + 1) }, addressManager := (w.addressManager.getNewAddressPath true).2 }) ∧
      a.isChange = true ∧ a.sha256 = true ∧
      a.path.index = w.addressManager.changeAddressIndex ∧
      (w.addressManager.getNewAddressPath true).2.changeAddressIndex =
        w.addressManager.changeAddressIndex + 1 ∧
      ({ s with address_index := some (s.address_index.getD 0 + 1) } : ColdStakingSetup).spend_address = s.spend_address) ∧
    (∀ w2 s2 sa2, w2.coldStakingSetup = some s2 → w2.coin = "part" →
      (strStartsWith s2.staking_key "pcs" || strStartsWith s2.staking_key "tpcs") = true →
      spendFalsy s2.spend_address = false →
      Wallet.getColdStakingAddresses w2 sa2 =
        Except.ok
          ({ staking_address := some (StakeVal.verbatim s2.staking_key),
             spend_address := s2.spend_address }, w2)) := by
  constructor
  · have hC : ¬ (w.coin ≠ "part") := by simp [hcoin]
    have hnb : ¬ ((strStartsWith s.staking_key "pcs" || strStartsWith s.staking_key "tpcs") = true) := by
      simp [hkey]
    have hcpl1 : ({ w with coldStakingSetup := some { s with address_index := some (s.address_index.getD 0 + 1) } } : Wallet).isComplete = true := by
      simp [Wallet.isComplete, hst]
    unfold Wallet.getColdStakingAddresses
    rw [hcs]
    dsimp only
    rw [if_neg hC, if_neg hnb]
    have hod : spendOrDerive
        ({ w with coldStakingSetup := some { s with address_index := some (s.address_index.getD 0 + 1) } } : Wallet) none =
        Except.ok (SpendVal.addr (Address.derive w.id w.addressType w.publicKeyRing
          (w.addressManager.getNewAddressPath true).1 w.m w.coin w.network true true),
          { w with coldStakingSetup := some { s with address_index := some (s.address_index.getD 0 + 1) }, addressManager := (w.addressManager.getNewAddressPath true).2 }) := by
      unfold spendOrDerive Wallet.createAddress
      rw [hcpl1]
      rfl
    rw [hod]
    exact ⟨_, rfl, rfl, rfl, rfl, rfl, rfl⟩
  · intro w2 s2 sa2 hcs2 hcoin2 hbr2 hnf
    have hC2 : ¬ (w2.coin ≠ "part") := by simp [hcoin2]
    unfold Wallet.getColdStakingAddresses
    rw [hcs2]
    dsimp only
    rw [if_neg hC2]
    simp only [hbr2, if_true]
    rw [if_neg (by simp [hnf])]

/-- C10, witness: the theorem applied to the concrete extended-key wallet. -/
theorem coldStaking_xpub_not_cached_witness :
    xpubWallet.coin = "part" ∧
    xpubWallet.coldStakingSetup = some xpubSetup ∧
    (strStartsWith xpubSetup.staking_key "pcs" ||
      strStartsWith xpubSetup.staking_key "tpcs") = false ∧
    xpubWallet.status = Status.complete ∧
    ((∃ a, Wallet.getColdStakingAddresses xpubWallet none =
        Except.ok
          ({ staking_address := some (StakeVal.derived xpubSetup.staking_key (xpubSetup.address_index.getD 0)),
             spend_address := some (SpendVal.addr a) },
           { xpubWallet with coldStakingSetup := some { xpubSetup with address_index := some (xpubSetup.address_index.getD 0 + 1) }, addressManager := (xpubWallet.addressManager.getNewAddressPath true).2 }) ∧
      a.isChange = true ∧ a.sha256 = true ∧
      a.path.index = xpubWallet.addressManager.changeAddressIndex ∧
      (xpubWallet.addressManager.getNewAddressPath true).2.changeAddressIndex =
        xpubWallet.addressManager.changeAddressIndex + 1 ∧
      ({ xpubSetup with address_index := some (xpubSetup.address_index.getD 0 + 1) } : ColdStakingSetup).spend_address = xpubSetup.spend_address) ∧
    (∀ w2 s2 sa2, w2.coldStakingSetup = some s2 → w2.coin = "part" →
      (strStartsWith s2.staking_key "pcs" || strStartsWith s2.staking_key "tpcs") = true →
      spendFalsy s2.spend_address = false →
      Wallet.getColdStakingAddresses w2 sa2 =
        Except.ok
          ({ staking_address := some (StakeVal.verbatim s2.staking_key),
             spend_address := s2.spend_address }, w2))) :=
  ⟨rfl, rfl, by decide, rfl,
   coldStaking_xpub_not_cached xpubWallet xpubSetup rfl rfl (by decide) rfl⟩

/-- Invariant of repeated `addCopayer` calls: starting from any wallet whose
status and public key ring agree with its fill level, adding matching-coin
copayers succeeds, appends them in order, and keeps status and ring in step
with the fill level. -/
theorem addCopayerSeq_inv (cs : List Copayer) : ∀ (w : Wallet) (N : Nat) (pkr0 : List PkrEntry),
    w.n = (N : Int) →
    (∀ c ∈ cs, c.coin = w.coin) →
    w.status = (if N ≤ w.copayers.length then Status.complete else Status.pending) →
    w.publicKeyRing = (if N ≤ w.copayers.length then publicKeyRingOf w.copayers else pkr0) →
    ∃ w', addCopayerSeq w cs = Except.ok w' ∧
      w'.copayers = w.copayers ++ cs ∧ w'.coin = w.coin ∧ w'.n = w.n ∧
      w'.status = (if N ≤ (w.copayers ++ cs).length then Status.complete else Status.pending) ∧
      w'.publicKeyRing =
        (if N ≤ (w.copayers ++ cs).length then publicKeyRingOf (w.copayers ++ cs) else pkr0) := by
  induction cs with
  | nil =>
    intro w N pkr0 hn hcoin hst hpkr
    exact ⟨w, rfl, by simp, rfl, rfl, by simpa using hst, by simpa using hpkr⟩
  | cons c cs ih =>
    intro w N pkr0 hn hcoin hst hpkr
    have hcc : c.coin = w.coin := hcoin c (by simp)
    by_cases hlt : (((w.copayers ++ [c]).length : Int) < w.n)
    · have hlen1 : w.copayers.length + 1 < N := by
        rw [hn] at hlt
        simp only [List.length_append, List.length_cons, List.length_nil] at hlt
        exact_mod_cast hlt
      have hstep : Wallet.addCopayer w c =
          Except.ok { w with copayers := w.copayers ++ [c] } := by
        unfold Wallet.addCopayer
        rw [if_neg (by simp [hcc]), if_pos hlt]
      obtain ⟨w', hseq, hcps, hcoin', hn', hst', hpkr'⟩ :=
        ih { w with copayers := w.copayers ++ [c] } N pkr0 hn
          (fun x hx => hcoin x (by simp [hx]))
          (by
            rw [hst]
            simp only [List.length_append, List.length_cons, List.length_nil]
            rw [if_neg (by omega), if_neg (by omega)])
          (by
            rw [hpkr]
            simp only [List.length_append, List.length_cons, List.length_nil]
            rw [if_neg (by omega), if_neg (by omega)])
      refine ⟨w', ?_, ?_, hcoin', hn', ?_, ?_⟩
      · unfold addCopayerSeq
        rw [hstep]
        exact hseq
      · rw [hcps]
        simp
      · rw [hst']
        simp [List.append_assoc]
      · rw [hpkr']
        simp [List.append_assoc]
    · have hlen1 : N ≤ w.copayers.length + 1 := by
        rw [hn] at hlt
        simp only [List.length_append, List.length_cons, List.length_nil] at hlt
        have h2 := not_lt.mp hlt
        have h3 : N ≤ w.copayers.length + (0 + 1) := by exact_mod_cast h2
        omega
      have hstep : Wallet.addCopayer w c =
          Except.ok { w with copayers := w.copayers ++ [c], status := Status.complete, publicKeyRing := publicKeyRingOf (w.copayers ++ [c]) } := by
        unfold Wallet.addCopayer
        rw [if_neg (by simp [hcc]), if_neg hlt]
      obtain ⟨w', hseq, hcps, hcoin', hn', hst', hpkr'⟩ :=
        ih { w with copayers := w.copayers ++ [c], status := Status.complete, publicKeyRing := publicKeyRingOf (w.copayers ++ [c]) } N pkr0 hn
          (fun x hx => hcoin x (by simp [hx]))
          (by
            simp only [List.length_append, List.length_cons, List.length_nil]
            rw [if_pos (by omega)])
          (by
            simp only [List.length_append, List.length_cons, List.length_nil]
            rw [if_pos (by omega)])
      refine ⟨w', ?_, ?_, hcoin', hn', ?_, ?_⟩
      · unfold addCopayerSeq
        rw [hstep]
        exact hseq
      · rw [hcps]
        simp
      · rw [hst']
        simp only [List.length_append, List.length_cons, List.length_nil]
        rw [if_pos (by omega), if_pos (by omega)]
      · rw [hpkr']
        simp only [List.length_append, List.length_cons, List.length_nil]
        rw [if_pos (by omega), if_pos (by omega)]
        simp [List.append_assoc]

/-- C3: starting from a wallet created pending with total signer count
`n = N ≥ 1` and adding any sequence of matching-coin copayers one at a time,
after `k` additions the status is `complete` exactly when `k ≥ N` — so the
transition happens at the `N`-th copayer, never earlier and only once — and
right at completion (`k = N`) the public key ring equals the copayers'
`(xPubKey, requestPubKey)` projections in join order and has length `N`. -/
theorem wallet_completion_exact (w0 : Wallet) (cs : List Copayer) (N k : Nat)
    (hst : w0.status = Status.pending) (hcp : w0.copayers = [])
    (hpkr : w0.publicKeyRing = []) (hn : w0.n = (N : Int)) (hN : 1 ≤ N)
    (hcoin : ∀ c ∈ cs, c.coin = w0.coin) (hk : k ≤ cs.length) :
    ∃ w', addCopayerSeq w0 (cs.take k) = Except.ok w' ∧
      w'.copayers = cs.take k ∧
      (w'.status = Status.complete ↔ N ≤ k) ∧
      w'.publicKeyRing = (if N ≤ k then publicKeyRingOf (cs.take k) else []) ∧
      (k = N → w'.publicKeyRing = publicKeyRingOf (cs.take N) ∧
        w'.publicKeyRing.length = N) := by
  have hlen : (cs.take k).length = k := by
    rw [List.length_take]
    omega
  obtain ⟨w', hseq, hcps, hcoin', hn', hst', hpkr'⟩ :=
    addCopayerSeq_inv (cs.take k) w0 N [] hn
      (fun c hc => hcoin c (List.mem_of_mem_take hc))
      (by
        rw [hcp]
        simp only [List.length_nil]
        rw [if_neg (by omega)]
        exact hst)
      (by
        rw [hcp]
        simp only [List.length_nil]
        rw [if_neg (by omega)]
        exact hpkr)
  have hcps' : w'.copayers = cs.take k := by
    rw [hcps, hcp]
    simp
  have hst'' : w'.status = (if N ≤ k then Status.complete else Status.pending) := by
    rw [hst', hcp]
    simp only [List.nil_append, hlen]
  have hpkr'' : w'.publicKeyRing = (if N ≤ k then publicKeyRingOf (cs.take k) else []) := by
    rw [hpkr', hcp]
    simp only [List.nil_append, hlen]
  refine ⟨w', hseq, hcps', ?_, hpkr'', ?_⟩
  · by_cases hNk : N ≤ k
    · rw [hst'', if_pos hNk]
      exact ⟨fun _ => hNk, fun _ => rfl⟩
    · rw [hst'', if_neg hNk]
      exact ⟨fun h => absurd h (by decide), fun h => absurd h hNk⟩
  · intro hkN
    subst hkN
    rw [hpkr'', if_pos (by omega)]
    constructor
    · rfl
    · simp only [publicKeyRingOf, List.length_map, hlen]

/-- A concrete pending 2-of-2 `part` wallet with no copayers yet. -/
def samplePendingWallet : Wallet :=
  { sampleCompleteWallet with
    status := Status.pending
    publicKeyRing := []
    copayers := []
    m := 2
    n := 2 }

/-- C3, witness: adding two matching-coin copayers to the concrete pending
2-signer wallet completes it exactly at the second copayer. -/
theorem wallet_completion_exact_witness :
    samplePendingWallet.status = Status.pending ∧
    samplePendingWallet.copayers = [] ∧
    samplePendingWallet.publicKeyRing = [] ∧
    samplePendingWallet.n = ((2 : Nat) : Int) ∧
    (∀ c ∈ [sampleCopayer1, sampleCopayer2], c.coin = samplePendingWallet.coin) ∧
    (∃ w', addCopayerSeq samplePendingWallet ([sampleCopayer1, sampleCopayer2].take 2) =
        Except.ok w' ∧
      w'.copayers = [sampleCopayer1, sampleCopayer2].take 2 ∧
      (w'.status = Status.complete ↔ 2 ≤ 2) ∧
      w'.publicKeyRing =
        (if 2 ≤ 2 then publicKeyRingOf ([sampleCopayer1, sampleCopayer2].take 2) else []) ∧
      (2 = 2 → w'.publicKeyRing = publicKeyRingOf ([sampleCopayer1, sampleCopayer2].take 2) ∧
        w'.publicKeyRing.length = 2)) :=
  ⟨rfl, rfl, rfl, by decide, by decide,
   wallet_completion_exact samplePendingWallet [sampleCopayer1, sampleCopayer2] 2 2
     rfl rfl rfl (by decide) (by decide) (by decide) (by decide)⟩

/-- Deep-cloning every copayer to its plain object and rebuilding through
`Copayer.fromObj` is the identity. -/
theorem copayers_plain_roundtrip (cs : List Copayer) :
    (cs.map Copayer.toPlain).map Copayer.fromObj = cs := by
  induction cs with
  | nil => rfl
  | cons c cs ih =>
    rw [List.map_cons, List.map_cons, ih]
    rfl

/-- C9: for every wallet whose `coin`, `derivationStrategy` and `addressType`
are non-empty strings — which holds for every wallet produced by
`Wallet.create` or `Wallet.fromObj`, since those fields are validated or
defaulted to non-empty constants — `Wallet.fromObj(wallet.toObject())`
reproduces the wallet on every field of the persisted document shape: same
m, n, status, copayer list, all AddressManager counters, and the rest of
`{version, id, createdOn, name, singleAddress, publicKeyRing, pubKey, coin,
network, derivationStrategy, addressType, scanStatus, coldStakingSetup}`. -/
theorem wallet_roundtrip (w : Wallet) (h1 : w.coin ≠ "") (h2 : w.derivationStrategy ≠ "")
    (h3 : w.addressType ≠ "") :
    persistedFieldsEq (Wallet.fromObj w.toObject) w := by
  unfold persistedFieldsEq Wallet.fromObj Wallet.toObject
  refine ⟨rfl, rfl, rfl, rfl, rfl, rfl, rfl, rfl, rfl, ?_, rfl, ?_, rfl, ?_, ?_, rfl, rfl, rfl⟩
  · exact copayers_plain_roundtrip w.copayers
  · simp [jsOrStr, h1]
  · simp [jsOrStr, h2]
  · simp [jsOrStr, h3]

/-- C9, witness: the round-trip theorem applied to the concrete complete
wallet. -/
theorem wallet_roundtrip_witness :
    sampleCompleteWallet.coin ≠ "" ∧
    sampleCompleteWallet.derivationStrategy ≠ "" ∧
    sampleCompleteWallet.addressType ≠ "" ∧
    persistedFieldsEq (Wallet.fromObj sampleCompleteWallet.toObject) sampleCompleteWallet :=
  ⟨by decide, by decide, by decide,
   wallet_roundtrip sampleCompleteWallet (by decide) (by decide) (by decide)⟩
